import Mathlib

/-!
Verification of the tabular reshape pipeline of src/app.py
(socio_economic_dashboard).

The core under study is the function get_data (src/app.py lines 60-129).
It fetches a wide DataFrame from the World Bank API, renames the first
two columns positionally to Country and TimeStr, melts to long form,
derives Year by removing every occurrence of the substring YR from
TimeStr and converting to int, pivots on (Country, Year) with one column
per series code, renames code columns through the reversed indicator
dictionary, sorts by Year and returns (table, None); a JSONDecodeError
from the fetch is returned as (None, boiler-plate message plus detail),
and any other exception as (None, str(e)).

The embedding below mirrors that pipeline over explicit lists.  A raw
row carries its (series code, value) cells as an association list; the
melt order therefore enumerates rows before columns, while pandas melt
enumerates columns before rows.  Every later stage is order-insensitive
in the ways that matter: year conversion fails as a whole if any melted
row fails, duplicate detection is a property of the multiset of
(entity, year, code) triples, and the pivot output is rebuilt from
first-occurrence-deduplicated key and column lists, so the observable
results agree.  pandas pivot sorts its index and columns; the pivot here
keeps first-occurrence order for keys (the final sort_values on Year
decides the row order that the specification constrains, and entity
order among equal years is explicitly unspecified) and sorts the column
codes lexicographically by code points, as pandas does.
-/

namespace SocioDash

/-- Raw wide-format record as delivered by the statistics source after
reset_index: the first positional column is the entity, the second the
raw time label (possibly missing), and the remaining cells map a series
code to a numeric-or-missing value (src/app.py lines 82-90). -/
structure RawRow where
  entity : String
  time : Option String
  values : List (String × Option Int)
deriving DecidableEq, Repr

/-- Ordered collection of raw records. -/
abbrev RawTable := List RawRow

/-- Requested series: readable name paired with the external series code
(the indicators_dict argument of get_data). -/
abbrev SeriesRequest := List (String × String)

/-- Long-form record produced by melt: one record per (row, value cell)
(src/app.py lines 94-98). -/
structure LongRow where
  entity : String
  time : Option String
  code : String
  value : Option Int
deriving DecidableEq, Repr

/-- Long-form record after the Year column has been derived from the raw
time label (src/app.py line 101). -/
structure YearRow where
  entity : String
  year : Int
  code : String
  value : Option Int
deriving DecidableEq, Repr

/-- Row of the final normalized table: entity, integer year, and one
cell per pivot column, keyed by the (possibly renamed) column label. -/
structure NormRow where
  entity : String
  year : Int
  values : List (String × Option Int)
deriving DecidableEq, Repr

/-- Ordered collection of normalized rows. -/
abbrev NormalizedTable := List NormRow

/-- Melt from wide to long format, id_vars Country and TimeStr
(src/app.py lines 94-98). -/
def melt (raw : RawTable) : List LongRow :=
  raw.flatMap fun r => r.values.map fun cv => ⟨r.entity, r.time, cv.1, cv.2⟩

/-- Remove every (non-overlapping, leftmost-first) occurrence of the
two-character substring YR, as str.replace does on each label
(src/app.py line 101). -/
def removeYR : List Char → List Char
  | 'Y' :: 'R' :: rest => removeYR rest
  | c :: rest => c :: removeYR rest
  | [] => []

/-- Value of a decimal digit character, none for any other character. -/
def digitVal (c : Char) : Option Nat :=
  if c.isDigit then some (c.toNat - '0'.toNat) else none

/-- Fold a character list into a decimal number; none when a non-digit
occurs or when no digit at all was seen. -/
def digitsVal : List Char → Option Nat → Option Nat
  | [], acc => acc
  | c :: cs, acc =>
    match digitVal c, acc with
    | some d, some n => digitsVal cs (some (n * 10 + d))
    | some d, none => digitsVal cs (some d)
    | none, _ => none

/-- Convert a character list to an integer the way the astype(int)
conversion accepts a decimal string literal: an optional sign followed
by at least one digit; none on anything else. -/
def pyInt : List Char → Option Int
  | '-' :: cs => (digitsVal cs none).map fun n => -(n : Int)
  | '+' :: cs => (digitsVal cs none).map fun n => (n : Int)
  | cs => (digitsVal cs none).map fun n => (n : Int)

/-- Derive the integer year from a raw time label: strip YR occurrences
and convert; a missing label or a failed conversion yields none
(src/app.py line 101). -/
def parseTime : Option String → Option Int
  | none => none
  | some s => pyInt (removeYR s.data)

/-- Detail string of the conversion error raised by astype(int) on a bad
label; get_data catches it and returns it as data (src/app.py 127-129). -/
def astypeErrMsg : String := "invalid literal for int with base 10"

/-- Compute the Year column for every melted record; the conversion is
column-wide, so one bad label fails the whole column, exactly as
astype(int) raises on the first unconvertible entry (src/app.py 101). -/
def parseYears : List LongRow → Except String (List YearRow)
  | [] => .ok []
  | r :: rs =>
    match parseTime r.time with
    | none => .error astypeErrMsg
    | some y =>
      match parseYears rs with
      | .error e => .error e
      | .ok ys => .ok (⟨r.entity, y, r.code, r.value⟩ :: ys)

/-- Composite pivot key of a long record: (entity, year, series code). -/
def tripleOf (r : YearRow) : String × Int × String := (r.entity, r.year, r.code)

/-- True when the list has no duplicate element. -/
def dupFree [DecidableEq α] : List α → Bool
  | [] => true
  | x :: xs => !(xs.contains x) && dupFree xs

/-- Keep the first occurrence of every element, in first-seen order. -/
def dedupFirst [DecidableEq α] : List α → List α
  | [] => []
  | x :: xs => x :: (dedupFirst xs).filter fun y => decide (y ≠ x)

/-- Insertion step of a stable insertion sort on a boolean order. -/
def insertLe (le : α → α → Bool) (a : α) : List α → List α
  | [] => [a]
  | x :: xs => if le a x then a :: x :: xs else x :: insertLe le a xs

/-- Stable insertion sort on a boolean order. -/
def sortLe (le : α → α → Bool) : List α → List α
  | [] => []
  | x :: xs => insertLe le x (sortLe le xs)

/-- Code-point lexicographic order on character lists, the order pandas
uses on string labels. -/
def charListLe : List Char → List Char → Bool
  | [], _ => true
  | _ :: _, [] => false
  | a :: as, b :: bs => if a = b then charListLe as bs else decide (a < b)

/-- Distinct (entity, year) pivot keys in first-occurrence order
(src/app.py lines 105-109). -/
def pivotKeys (rows : List YearRow) : List (String × Int) :=
  dedupFirst (rows.map fun r => (r.entity, r.year))

/-- Distinct series-code pivot columns, sorted as pandas sorts pivot
columns (src/app.py lines 105-109). -/
def pivotCols (rows : List YearRow) : List String :=
  sortLe (fun a b => charListLe a.data b.data) (dedupFirst (rows.map YearRow.code))

/-- Cell of the pivoted table: the value of the unique long record with
the given entity, year and code, or missing when there is none. -/
def cellVal (rows : List YearRow) (e : String) (y : Int) (c : String) : Option Int :=
  match rows.find? (fun r => r.entity == e && r.year == y && r.code == c) with
  | some r => r.value
  | none => none

/-- Detail string of the error DataFrame.pivot raises on duplicate
(index, column) pairs; get_data catches it (src/app.py 127-129). -/
def pivotDupMsg : String := "Index contains duplicate entries, cannot reshape"

/-- Pivot the long table back to wide form keyed by (Country, Year),
one column per distinct series code; DataFrame.pivot raises when the
same (entity, year, code) triple occurs twice (src/app.py lines 105-109). -/
def pivot (rows : List YearRow) : Except String NormalizedTable :=
  if dupFree (rows.map tripleOf) then
    .ok ((pivotKeys rows).map fun k =>
      ⟨k.1, k.2, (pivotCols rows).map fun c => (c, cellVal rows k.1 k.2 c)⟩)
  else
    .error pivotDupMsg

/-- Reversed indicator dictionary applied to a column label: the last
request entry whose code equals the label wins (a Python dict built by
comprehension keeps the last binding) and a label bound by no entry is
kept unchanged, as DataFrame.rename does (src/app.py lines 113-114). -/
def revLookup (indicators_dict : SeriesRequest) (c : String) : String :=
  match indicators_dict.reverse.find? (fun kv => kv.2 == c) with
  | some kv => kv.1
  | none => c

/-- Rename the value cells of one row through the reversed indicator
dictionary (src/app.py line 114). -/
def renameRow (indicators_dict : SeriesRequest) (r : NormRow) : NormRow :=
  ⟨r.entity, r.year, r.values.map fun cv => (revLookup indicators_dict cv.1, cv.2)⟩

/-- Boolean year order on normalized rows. -/
def yearLe (a b : NormRow) : Bool := a.year ≤ b.year

/-- Ascending sort of the final table by Year (src/app.py line 117). -/
def sortValuesYear (t : NormalizedTable) : NormalizedTable := sortLe yearLe t

/-- Outcome of the wb.data.DataFrame call that get_data wraps: a raw
wide table, a raised JSONDecodeError, or any other raised exception
(src/app.py lines 72-76 and 119-129). -/
inductive FetchOutcome where
  | raw (df_wide : RawTable)
  | jsonDecodeFail (detail : String)
  | otherFail (detail : String)
deriving DecidableEq, Repr

/-- Boiler-plate text prepended to the JSONDecodeError detail
(src/app.py lines 121-126). -/
def jsonDecodeMsgHead : String :=
  "JSONDecodeError: The World Bank API sent back a broken response. This can happen if the API is temporarily down or the request has no data. Try a different year range. Details: "

/-- Embedding of get_data (src/app.py lines 60-129): run the reshape
pipeline on the fetched table and return (table, None); catch a
JSONDecodeError from the fetch as (None, boiler-plate plus detail) and
every other exception, raised by the fetch or by the pipeline itself,
as (None, detail). -/
def get_data (fetched : FetchOutcome) (indicators_dict : SeriesRequest) :
    Option NormalizedTable × Option String :=
  match fetched with
  | .raw df_wide =>
    match parseYears (melt df_wide) with
    | .error e => (none, some e)
    | .ok df_long =>
      match pivot df_long with
      | .error e => (none, some e)
      | .ok df_final =>
        (some (sortValuesYear (df_final.map (renameRow indicators_dict))), none)
  | .jsonDecodeFail e => (none, some (jsonDecodeMsgHead ++ e))
  | .otherFail e => (none, some e)

/-- Modelled from the spec: classification of one ResilientFetcher
attempt, which is code of this repository not present under src/.
The transport can fail, or deliver a non-success HTTP status, an
unparseable body, a parsed body carrying only a block reason, a parsed
body with neither candidate answer nor block reason, or a candidate
answer. -/
inductive AttemptResult where
  | transportFail (detail : String)
  | httpStatus (status : Nat) (body : String)
  | badBody (body : String)
  | blockedBody (reason : String)
  | noCandidate
  | answer (text : String)
deriving DecidableEq, Repr

/-- Modelled from the spec: the failure kinds of the CallOutcome
taxonomy. -/
inductive FailKind where
  | HttpStatus
  | Malformed
  | Blocked
  | NetworkError
  | Exhausted
deriving DecidableEq, Repr

/-- Modelled from the spec: the CallOutcome tagged union. -/
inductive CallOutcome where
  | Success (text : String)
  | Failure (kind : FailKind) (detail : String)
deriving DecidableEq, Repr

/-- Modelled from the spec: the fixed maximum number of attempts. -/
def maxAttempts : Nat := 3

/-- Modelled from the spec: the retry loop of ResilientFetcher.fetch.
The transport argument gives the result of each attempt by index;
attempt is the index of the next attempt and the second argument the
number of attempts still allowed.  Returns the outcome together with
the number of attempts actually made and the list of backoff delays
slept, in order.  A transport failure on a non-final attempt sleeps
2 ^ attempt time units and retries; on the final attempt it resolves to
Failure NetworkError.  Every non-transport attempt result resolves
immediately without retry.  Exhaustion without resolution is returned
as Failure Exhausted. -/
def fetchGo (transport : Nat → AttemptResult) (attempt : Nat) :
    Nat → CallOutcome × Nat × List Nat
  | 0 => (.Failure .Exhausted "retries consumed without resolution", 0, [])
  | remaining + 1 =>
    match transport attempt with
    | .transportFail d =>
      if remaining == 0 then (.Failure .NetworkError d, 1, [])
      else
        let r := fetchGo transport (attempt + 1) remaining
        (r.1, r.2.1 + 1, 2 ^ attempt :: r.2.2)
    | .httpStatus st body => (.Failure .HttpStatus (toString st ++ " " ++ body), 1, [])
    | .badBody body => (.Failure .Malformed body, 1, [])
    | .blockedBody reason => (.Failure .Blocked reason, 1, [])
    | .noCandidate => (.Failure .Malformed "unexpected shape", 1, [])
    | .answer text => (.Success text, 1, [])

/-- Modelled from the spec: ResilientFetcher.fetch, which is code of
this repository not present under src/.  An empty content string fails
fast with Failure Malformed and no attempt; otherwise the bounded retry
loop runs from attempt index 0 with maxAttempts attempts allowed.  The
instruction string only shapes the request sent by the transport, which
the transport argument abstracts. -/
def fetch (_instruction content : String) (transport : Nat → AttemptResult) :
    CallOutcome × Nat × List Nat :=
  if content == "" then (.Failure .Malformed "empty input", 0, [])
  else fetchGo transport 0 maxAttempts

/-! Helper lemmas about the list machinery of the pipeline. -/

/-- Inserting an element permutes the element onto the list. -/
theorem perm_insertLe (le : α → α → Bool) (a : α) :
    ∀ l : List α, (insertLe le a l).Perm (a :: l)
  | [] => .refl _
  | x :: xs => by
    simp only [insertLe]
    split
    · exact .refl _
    · exact .trans (.cons x (perm_insertLe le a xs)) (.swap a x xs)

/-- Sorting permutes the list. -/
theorem perm_sortLe (le : α → α → Bool) : ∀ l : List α, (sortLe le l).Perm l
  | [] => .refl _
  | x :: xs => .trans (perm_insertLe le x (sortLe le xs)) (.cons x (perm_sortLe le xs))

/-- Sorting preserves membership. -/
theorem mem_sortLe {le : α → α → Bool} {a : α} {l : List α} :
    a ∈ sortLe le l ↔ a ∈ l :=
  (perm_sortLe le l).mem_iff

/-- Inserting into a sorted list keeps it sorted, for a transitive and
total boolean order. -/
theorem sorted_insertLe (le : α → α → Bool)
    (htrans : ∀ a b c, le a b = true → le b c = true → le a c = true)
    (htot : ∀ a b, le a b = true ∨ le b a = true) (a : α) :
    ∀ l : List α, l.Pairwise (fun x y => le x y = true) →
      (insertLe le a l).Pairwise (fun x y => le x y = true)
  | [], _ => by simp [insertLe]
  | x :: xs, h => by
    simp only [insertLe]
    split
    · rename_i hax
      refine List.pairwise_cons.2 ⟨?_, h⟩
      intro y hy
      rcases List.mem_cons.1 hy with rfl | hy'
      · exact hax
      · exact htrans a x y hax ((List.pairwise_cons.1 h).1 y hy')
    · rename_i hax
      have hxa : le x a = true := (htot a x).resolve_left hax
      refine List.pairwise_cons.2 ⟨?_, ?_⟩
      · intro y hy
        rcases List.mem_cons.1 ((perm_insertLe le a xs).subset hy) with rfl | hy'
        · exact hxa
        · exact (List.pairwise_cons.1 h).1 y hy'
      · exact sorted_insertLe le htrans htot a xs (List.pairwise_cons.1 h).2

/-- The sorted list is pairwise ordered, for a transitive and total
boolean order. -/
theorem sorted_sortLe (le : α → α → Bool)
    (htrans : ∀ a b c, le a b = true → le b c = true → le a c = true)
    (htot : ∀ a b, le a b = true ∨ le b a = true) :
    ∀ l : List α, (sortLe le l).Pairwise (fun x y => le x y = true)
  | [] => .nil
  | x :: xs => sorted_insertLe le htrans htot x _ (sorted_sortLe le htrans htot xs)

/-- Deduplication preserves membership. -/
theorem mem_dedupFirst [DecidableEq α] (a : α) :
    ∀ l : List α, a ∈ dedupFirst l ↔ a ∈ l
  | [] => Iff.rfl
  | x :: xs => by
    have ih := mem_dedupFirst a xs
    simp only [dedupFirst, List.mem_cons, List.mem_filter, ih, decide_eq_true_eq]
    by_cases h : a = x <;> simp [h]

/-- Deduplication yields a list without duplicates. -/
theorem nodup_dedupFirst [DecidableEq α] : ∀ l : List α, (dedupFirst l).Nodup
  | [] => .nil
  | x :: xs => by
    simp only [dedupFirst, List.nodup_cons]
    refine ⟨?_, (nodup_dedupFirst xs).filter _⟩
    simp [List.mem_filter]

/-! Helper lemmas about the pipeline stages. -/

/-- A successful year conversion touches no series code. -/
theorem parseYears_ok_codes :
    ∀ (rows : List LongRow) (ys : List YearRow), parseYears rows = .ok ys →
      ys.map YearRow.code = rows.map LongRow.code
  | [], ys, h => by cases h; rfl
  | r :: rs, ys, h => by
    simp only [parseYears] at h
    cases hp : parseTime r.time with
    | none => rw [hp] at h; cases h
    | some y =>
      rw [hp] at h
      cases hr : parseYears rs with
      | error e => rw [hr] at h; cases h
      | ok zs =>
        rw [hr] at h
        cases h
        simp [parseYears_ok_codes rs zs hr]

/-- One bad time label fails the whole year conversion. -/
theorem parseYears_err_of_bad :
    ∀ rows : List LongRow, (∃ lr ∈ rows, parseTime lr.time = none) →
      parseYears rows = .error astypeErrMsg
  | [], h => absurd h (by simp)
  | r :: rs, h => by
    simp only [parseYears]
    cases hp : parseTime r.time with
    | none => rfl
    | some y =>
      have hrs : ∃ lr ∈ rs, parseTime lr.time = none := by
        rcases h with ⟨lr, hmem, hnone⟩
        rcases List.mem_cons.1 hmem with rfl | hmem'
        · rw [hp] at hnone; cases hnone
        · exact ⟨lr, hmem', hnone⟩
      rw [parseYears_err_of_bad rs hrs]

/-- Shape of a successful pivot. -/
theorem pivot_ok_elim {rows : List YearRow} {t : NormalizedTable}
    (h : pivot rows = .ok t) :
    dupFree (rows.map tripleOf) = true ∧
      t = (pivotKeys rows).map fun k =>
        ⟨k.1, k.2, (pivotCols rows).map fun c => (c, cellVal rows k.1 k.2 c)⟩ := by
  unfold pivot at h
  split at h
  · exact ⟨by assumption, (Except.ok.inj h).symm⟩
  · cases h

/-- Every row of a successful pivot carries exactly the pivot columns. -/
theorem pivot_row_cols {rows : List YearRow} {t : NormalizedTable}
    (h : pivot rows = .ok t) :
    ∀ r ∈ t, r.values.map Prod.fst = pivotCols rows := by
  obtain ⟨-, rfl⟩ := pivot_ok_elim h
  intro r hr
  rcases List.mem_map.1 hr with ⟨k, -, rfl⟩
  simp only [List.map_map]
  have hcomp : (Prod.fst ∘ fun c => (c, cellVal rows k.1 k.2 c)) = fun c : String => c :=
    funext fun c => rfl
  rw [hcomp, List.map_id']

/-- The (entity, year) keys of a successful pivot are the deduplicated
keys of the long table. -/
theorem pivot_keys_eq {rows : List YearRow} {t : NormalizedTable}
    (h : pivot rows = .ok t) :
    t.map (fun r => (r.entity, r.year)) = pivotKeys rows := by
  obtain ⟨-, rfl⟩ := pivot_ok_elim h
  simp only [List.map_map]
  have hcomp : ((fun r : NormRow => (r.entity, r.year)) ∘ fun k : String × Int =>
      (⟨k.1, k.2, (pivotCols rows).map fun c => (c, cellVal rows k.1 k.2 c)⟩ : NormRow)) =
      fun k => k := funext fun k => rfl
  rw [hcomp, List.map_id']

/-- Shape of a get_data call that returned a table. -/
theorem get_data_raw_elim {raw : RawTable} {s : SeriesRequest} {t : NormalizedTable}
    (h : (get_data (.raw raw) s).1 = some t) :
    ∃ ys, parseYears (melt raw) = .ok ys ∧
      ∃ w, pivot ys = .ok w ∧ t = sortValuesYear (w.map (renameRow s)) := by
  simp only [get_data] at h
  split at h
  · simp at h
  · rename_i ys hp
    split at h
    · simp at h
    · rename_i w hw
      simp only [Option.some.injEq] at h
      exact ⟨ys, hp, w, hw, h.symm⟩

/-- The reversed indicator dictionary leaves a label alone when no
request entry carries it as its code. -/
theorem revLookup_eq_self {s : SeriesRequest} {c : String}
    (h : c ∉ s.map Prod.snd) : revLookup s c = c := by
  have hnone : ∀ kv ∈ s.reverse, ¬((fun kv : String × String => kv.2 == c) kv = true) := by
    intro kv hkv hbeq
    exact h (List.mem_map.2 ⟨kv, List.mem_reverse.1 hkv, beq_iff_eq.1 hbeq⟩)
  unfold revLookup
  rw [List.find?_eq_none.2 hnone]

/-! Claim theorems. -/

/-- C1 (counterexample): on a raw table in which the same
(entity, year, series-code) triple appears in two rows, get_data does
not return a table with one collapsed row per (entity, year); the pivot
raises on the duplicate index and the call returns (None, detail). -/
theorem claim_C1_counterexample :
    get_data (.raw [⟨"IND", some "YR2000", [("a", some 5)]⟩,
                    ⟨"IND", some "YR2000", [("a", some 5)]⟩]) [("A", "a")] =
      (none, some pivotDupMsg) ∧
    (get_data (.raw [⟨"IND", some "YR2000", [("a", some 5)]⟩,
                     ⟨"IND", some "YR2000", [("a", some 5)]⟩]) [("A", "a")]).1 ≠
      some [⟨"IND", 2000, [("A", some 5)]⟩] :=
  ⟨by decide, by decide⟩

/-- C1 (amended): when the year conversion succeeds and the long table
holds a duplicate (entity, year, series-code) triple, get_data fails as
a whole: it returns no table and the duplicate-index error detail,
instead of collapsing the duplicates. -/
theorem claim_C1_amended (raw : RawTable) (s : SeriesRequest) (ys : List YearRow)
    (hp : parseYears (melt raw) = .ok ys)
    (hd : dupFree (ys.map tripleOf) = false) :
    get_data (.raw raw) s = (none, some pivotDupMsg) := by
  simp [get_data, hp, pivot, hd]

/-- C1 (amended, witness): the amended statement at a concrete
duplicated input. -/
theorem claim_C1_amended_witness :
    parseYears (melt [⟨"BRA", some "YR1999", [("c", some 8)]⟩,
                      ⟨"BRA", some "YR1999", [("c", some 9)]⟩]) =
      .ok [⟨"BRA", 1999, "c", some 8⟩, ⟨"BRA", 1999, "c", some 9⟩] ∧
    dupFree (([⟨"BRA", 1999, "c", some 8⟩,
               ⟨"BRA", 1999, "c", some 9⟩] : List YearRow).map tripleOf) = false ∧
    get_data (.raw [⟨"BRA", some "YR1999", [("c", some 8)]⟩,
                    ⟨"BRA", some "YR1999", [("c", some 9)]⟩]) [("C", "c")] =
      (none, some pivotDupMsg) :=
  ⟨by rfl, by decide,
   claim_C1_amended
     [⟨"BRA", some "YR1999", [("c", some 8)]⟩, ⟨"BRA", some "YR1999", [("c", some 9)]⟩]
     [("C", "c")]
     [⟨"BRA", 1999, "c", some 8⟩, ⟨"BRA", 1999, "c", some 9⟩]
     (by rfl) (by decide)⟩

/-- C2 (counterexample): on a raw table with one well-formed row and one
row whose time label is missing, get_data does not drop only the bad row
and return a table built from the rest; the whole call returns
(None, detail). -/
theorem claim_C2_counterexample :
    get_data (.raw [⟨"IND", some "YR2000", [("a", some 5)]⟩,
                    ⟨"FRA", none, [("a", some 6)]⟩]) [("A", "a")] =
      (none, some astypeErrMsg) ∧
    (get_data (.raw [⟨"IND", some "YR2000", [("a", some 5)]⟩,
                     ⟨"FRA", none, [("a", some 6)]⟩]) [("A", "a")]).1 ≠
      some [⟨"IND", 2000, [("A", some 5)]⟩] :=
  ⟨by decide, by decide⟩

/-- C2 (amended): a raw table containing any row whose time label is
missing or fails integer conversion after YR-stripping makes the whole
get_data call return no table and the conversion error detail; bad rows
are not dropped individually. -/
theorem claim_C2_amended (raw : RawTable) (s : SeriesRequest)
    (hbad : ∃ lr ∈ melt raw, parseTime lr.time = none) :
    get_data (.raw raw) s = (none, some astypeErrMsg) := by
  simp [get_data, parseYears_err_of_bad (melt raw) hbad]

/-- C2 (amended, witness): the amended statement at a concrete input
with an unconvertible time label. -/
theorem claim_C2_amended_witness :
    (∃ lr ∈ melt [⟨"DEU", some "YR20X0", [("d", some 1)]⟩], parseTime lr.time = none) ∧
    get_data (.raw [⟨"DEU", some "YR20X0", [("d", some 1)]⟩]) [("D", "d")] =
      (none, some astypeErrMsg) :=
  ⟨⟨⟨"DEU", some "YR20X0", "d", some 1⟩, by decide, by decide⟩,
   claim_C2_amended [⟨"DEU", some "YR20X0", [("d", some 1)]⟩] [("D", "d")]
     ⟨⟨"DEU", some "YR20X0", "d", some 1⟩, by decide, by decide⟩⟩

/-- C3: for the empty raw table and any series request, get_data
returns the empty table together with a null error, so absence of data
is distinguishable from a transport or parse error. -/
theorem claim_C3_empty_ok (s : SeriesRequest) :
    get_data (.raw []) s = (some [], none) := rfl

/-- C4 (counterexample): a series code present as a value column of the
raw table but absent from the request does appear among the columns of
the returned table: the rename step keeps unmatched columns. -/
theorem claim_C4_counterexample :
    get_data (.raw [⟨"IND", some "YR2000", [("a", some 5), ("zz", some 7)]⟩])
      [("A", "a")] =
      (some [⟨"IND", 2000, [("A", some 5), ("zz", some 7)]⟩], none) ∧
    "zz" ∈ ([("A", some 5), ("zz", some 7)] : List (String × Option Int)).map Prod.fst :=
  ⟨by decide, by decide⟩

/-- C4 (amended): a series code that occurs as a value column of the
raw table and is absent from the series request is retained, not
dropped: it appears verbatim among the columns of every row of any
table get_data returns. -/
theorem claim_C4_amended (raw : RawTable) (s : SeriesRequest) (t : NormalizedTable)
    (c : String) (r : NormRow) (h : (get_data (.raw raw) s).1 = some t) (hr : r ∈ t)
    (hc : c ∈ (melt raw).map LongRow.code) (habs : c ∉ s.map Prod.snd) :
    c ∈ r.values.map Prod.fst := by
  obtain ⟨ys, hp, w, hw, rfl⟩ := get_data_raw_elim h
  have hr' : r ∈ w.map (renameRow s) := mem_sortLe.1 hr
  rcases List.mem_map.1 hr' with ⟨r0, hr0, rfl⟩
  have hcols := pivot_row_cols hw r0 hr0
  have hcin : c ∈ pivotCols ys := by
    unfold pivotCols
    refine mem_sortLe.2 ((mem_dedupFirst c _).2 ?_)
    rw [parseYears_ok_codes (melt raw) ys hp]
    exact hc
  have hc0 : c ∈ r0.values.map Prod.fst := by rw [hcols]; exact hcin
  rcases List.mem_map.1 hc0 with ⟨cv, hcv, rfl⟩
  have hmm : (revLookup s cv.1, cv.2) ∈ (renameRow s r0).values := by
    simp only [renameRow]
    exact List.mem_map.2 ⟨cv, hcv, rfl⟩
  have hmem : revLookup s cv.1 ∈ (renameRow s r0).values.map Prod.fst :=
    List.mem_map.2 ⟨_, hmm, rfl⟩
  rwa [revLookup_eq_self habs] at hmem

/-- C4 (amended, witness): the amended statement at a concrete input
carrying the extra column xx. -/
theorem claim_C4_amended_witness :
    (get_data (.raw [⟨"ITA", some "YR1990", [("e", some 2), ("xx", some 3)]⟩])
      [("E", "e")]).1 = some [⟨"ITA", 1990, [("E", some 2), ("xx", some 3)]⟩] ∧
    (⟨"ITA", 1990, [("E", some 2), ("xx", some 3)]⟩ : NormRow) ∈
      ([⟨"ITA", 1990, [("E", some 2), ("xx", some 3)]⟩] : NormalizedTable) ∧
    "xx" ∈ (melt [⟨"ITA", some "YR1990", [("e", some 2), ("xx", some 3)]⟩]).map
      LongRow.code ∧
    "xx" ∉ ([("E", "e")] : SeriesRequest).map Prod.snd ∧
    "xx" ∈ (⟨"ITA", 1990, [("E", some 2), ("xx", some 3)]⟩ : NormRow).values.map Prod.fst :=
  ⟨by decide, by decide, by decide, by decide,
   claim_C4_amended [⟨"ITA", some "YR1990", [("e", some 2), ("xx", some 3)]⟩]
     [("E", "e")] [⟨"ITA", 1990, [("E", some 2), ("xx", some 3)]⟩] "xx"
     ⟨"ITA", 1990, [("E", some 2), ("xx", some 3)]⟩
     (by decide) (by decide) (by decide) (by decide)⟩

/-- C5: get_data reports every failure as data: a decoding failure is
returned as no table plus the boiler-plate message carrying the detail,
any other exception detail is returned verbatim with no table, and a
table is returned exactly when the error component is null. -/
theorem claim_C5_errors_as_data (d : String) (s : SeriesRequest) (f : FetchOutcome) :
    get_data (.jsonDecodeFail d) s = (none, some (jsonDecodeMsgHead ++ d)) ∧
    get_data (.otherFail d) s = (none, some d) ∧
    ((get_data f s).1.isSome ↔ (get_data f s).2 = none) := by
  refine ⟨rfl, rfl, ?_⟩
  cases f with
  | raw raw =>
    simp only [get_data]
    split
    · simp
    · split <;> simp
  | jsonDecodeFail e => simp [get_data]
  | otherFail e => simp [get_data]

/-- C6: every table that get_data returns contains at most one row per
(entity, year) pair. -/
theorem claim_C6_unique_keys (f : FetchOutcome) (s : SeriesRequest)
    (t : NormalizedTable) (h : (get_data f s).1 = some t) :
    (t.map fun r => (r.entity, r.year)).Nodup := by
  cases f with
  | jsonDecodeFail e => simp [get_data] at h
  | otherFail e => simp [get_data] at h
  | raw raw =>
    obtain ⟨ys, hp, w, hw, rfl⟩ := get_data_raw_elim h
    have hkey : (w.map (renameRow s)).map (fun r => (r.entity, r.year)) = pivotKeys ys := by
      rw [List.map_map]
      have hcomp : ((fun r : NormRow => (r.entity, r.year)) ∘ renameRow s) =
          fun r : NormRow => (r.entity, r.year) := funext fun r => rfl
      rw [hcomp]
      exact pivot_keys_eq hw
    have hnd : ((w.map (renameRow s)).map fun r => (r.entity, r.year)).Nodup := by
      rw [hkey]; exact nodup_dedupFirst _
    exact (((perm_sortLe yearLe (w.map (renameRow s))).map _).symm).nodup hnd

/-- C6 (witness): the uniqueness invariant at a concrete returned
table. -/
theorem claim_C6_unique_keys_witness :
    (get_data (.raw [⟨"IND", some "YR2001", [("a", some 1)]⟩,
                     ⟨"IND", some "YR2000", [("a", some 2)]⟩]) [("A", "a")]).1 =
      some [⟨"IND", 2000, [("A", some 2)]⟩, ⟨"IND", 2001, [("A", some 1)]⟩] ∧
    (([⟨"IND", 2000, [("A", some 2)]⟩,
       ⟨"IND", 2001, [("A", some 1)]⟩] : NormalizedTable).map
      fun r => (r.entity, r.year)).Nodup :=
  ⟨by decide,
   claim_C6_unique_keys
     (.raw [⟨"IND", some "YR2001", [("a", some 1)]⟩,
            ⟨"IND", some "YR2000", [("a", some 2)]⟩]) [("A", "a")]
     [⟨"IND", 2000, [("A", some 2)]⟩, ⟨"IND", 2001, [("A", some 1)]⟩] (by decide)⟩

/-- C7: get_data is deterministic: two calls on identical fetched
inputs and identical series requests return identical results. -/
theorem claim_C7_deterministic (f g : FetchOutcome) (s u : SeriesRequest)
    (hf : f = g) (hs : s = u) : get_data f s = get_data g u := by
  rw [hf, hs]

/-- C7 (witness): determinism applied at a concrete call. -/
theorem claim_C7_deterministic_witness :
    (FetchOutcome.raw [⟨"IND", some "YR2000", [("a", some 3)]⟩] =
      FetchOutcome.raw [⟨"IND", some "YR2000", [("a", some 3)]⟩]) ∧
    ([("A", "a")] : SeriesRequest) = [("A", "a")] ∧
    get_data (.raw [⟨"IND", some "YR2000", [("a", some 3)]⟩]) [("A", "a")] =
      get_data (.raw [⟨"IND", some "YR2000", [("a", some 3)]⟩]) [("A", "a")] :=
  ⟨rfl, rfl,
   claim_C7_deterministic
     (.raw [⟨"IND", some "YR2000", [("a", some 3)]⟩])
     (.raw [⟨"IND", some "YR2000", [("a", some 3)]⟩])
     [("A", "a")] [("A", "a")] rfl rfl⟩

/-- C8: every table that get_data returns is sorted ascending by
year. -/
theorem claim_C8_sorted_by_year (f : FetchOutcome) (s : SeriesRequest)
    (t : NormalizedTable) (h : (get_data f s).1 = some t) :
    t.Pairwise fun a b => a.year ≤ b.year := by
  cases f with
  | jsonDecodeFail e => simp [get_data] at h
  | otherFail e => simp [get_data] at h
  | raw raw =>
    obtain ⟨ys, hp, w, hw, rfl⟩ := get_data_raw_elim h
    have hsrt := sorted_sortLe yearLe
      (fun a b c h1 h2 => by
        simp only [yearLe, decide_eq_true_eq] at h1 h2 ⊢
        exact le_trans h1 h2)
      (fun a b => by
        simp only [yearLe, decide_eq_true_eq]
        exact Int.le_total a.year b.year)
      (w.map (renameRow s))
    exact hsrt.imp fun hab => by simpa [yearLe] using hab

/-- C8 (witness): sortedness at a concrete returned table. -/
theorem claim_C8_sorted_by_year_witness :
    (get_data (.raw [⟨"FRA", some "YR2010", [("b", some 4)]⟩,
                     ⟨"FRA", some "YR2005", [("b", some 3)]⟩]) [("B", "b")]).1 =
      some [⟨"FRA", 2005, [("B", some 3)]⟩, ⟨"FRA", 2010, [("B", some 4)]⟩] ∧
    ([⟨"FRA", 2005, [("B", some 3)]⟩,
      ⟨"FRA", 2010, [("B", some 4)]⟩] : NormalizedTable).Pairwise
      (fun a b => a.year ≤ b.year) :=
  ⟨by decide,
   claim_C8_sorted_by_year
     (.raw [⟨"FRA", some "YR2010", [("b", some 4)]⟩,
            ⟨"FRA", some "YR2005", [("b", some 3)]⟩]) [("B", "b")]
     [⟨"FRA", 2005, [("B", some 3)]⟩, ⟨"FRA", 2010, [("B", some 4)]⟩] (by decide)⟩

/-- C9: on the single-row raw table with entity IND, time label YR2000
and cells a = 5 and b = 10, with the request naming a as A and b as B,
get_data returns exactly one row (IND, 2000, A = 5, B = 10) and a null
error. -/
theorem claim_C9_single_row :
    get_data (.raw [⟨"IND", some "YR2000", [("a", some 5), ("b", some 10)]⟩])
      [("A", "a"), ("B", "b")] =
    (some [⟨"IND", 2000, [("A", some 5), ("B", some 10)]⟩], none) := by decide

/-- C10 (counterexample): with every attempt failing at the transport
level, fetch resolves to Failure NetworkError after exactly 3 attempts,
but the backoff delays slept between them are 1 and 2 time units — two
gaps, not the three delays 1, 2, 4 the claim states. -/
theorem claim_C10_counterexample :
    fetch "sys" "x" (fun _ => .transportFail "reset") =
      (.Failure .NetworkError "reset", 3, [1, 2]) ∧
    ([1, 2] : List Nat) ≠ [1, 2, 4] :=
  ⟨by decide, by decide⟩

/-- C10 (amended): for every non-empty content, if the transport fails
on all 3 attempts then fetch returns Failure NetworkError, exactly 3
attempts are made, and the backoff delays between consecutive attempts
are 1 and 2 time units (2 to the power of the 0-based attempt index; no
delay follows the final attempt). -/
theorem claim_C10_amended (instruction content : String)
    (transport : Nat → AttemptResult) (d : Nat → String) (hne : content ≠ "")
    (hfail : ∀ i, i < maxAttempts → transport i = .transportFail (d i)) :
    fetch instruction content transport =
      (.Failure .NetworkError (d 2), 3, [1, 2]) := by
  have h0 := hfail 0 (by decide)
  have h1 := hfail 1 (by decide)
  have h2 := hfail 2 (by decide)
  simp only [fetch, maxAttempts]
  rw [if_neg (by simpa using hne)]
  simp [fetchGo, h0, h1, h2]

/-- C10 (amended, witness): the amended statement at a concrete
always-failing transport. -/
theorem claim_C10_amended_witness :
    ("y" : String) ≠ "" ∧
    (∀ i, i < maxAttempts →
      (fun _ : Nat => AttemptResult.transportFail "down") i =
        .transportFail ((fun _ : Nat => "down") i)) ∧
    fetch "instr" "y" (fun _ => .transportFail "down") =
      (.Failure .NetworkError "down", 3, [1, 2]) :=
  ⟨by decide, fun _ _ => rfl,
   claim_C10_amended "instr" "y" (fun _ => .transportFail "down") (fun _ => "down")
     (by decide) (fun _ _ => rfl)⟩

end SocioDash
